import Mathlib

/-!
Verification of the KM-Eval record reconciliation and state-transition
validation engine, shallowly embedded from `src/eval_utils/validate_utils.py`
and `src/eval_utils/file_utils.py`.

Python floats and datetime values are modelled as rationals (`ℚ`): the code
only compares them and takes differences (`total_seconds()` of a datetime
difference), so an exact ordered field is a faithful carrier.  Python dicts
keyed by strings are modelled as association lists with Python dict update
semantics (`dictInsert` replaces in place or appends at the end).  A Python
function that can `raise` is modelled as returning `Except`.
-/

set_option maxHeartbeats 1000000

namespace KMEval

/-- The five legal `state_id` values, from `validate_utils.state_ids`.
Events reaching the state-transitions loader have already passed
`type_check_state_transition_fields`, which rejects any string outside this
list, so an inductive enumeration is a faithful carrier for `state_id`. -/
inductive StateId where
  | task_initialized
  | task_execution
  | km_push_activity
  | km_pull_activity
  | task_conclusion
deriving DecidableEq, Repr

/-- `validate_utils.initial_state_id`. -/
def initial_state_id : StateId := .task_initialized

/-- One line of a State Transitions JSONL after field validation and
timestamp parsing (`utc_timestamp` in seconds). -/
structure STEvent where
  subject_id : String
  condition : String
  task_id : String
  utc_timestamp : ℚ
  state_id : StateId
deriving DecidableEq, Repr

/-- The `f"{subject_id}_{condition}_{task_id}"` key built by the loaders. -/
def sessionKey (e : STEvent) : String :=
  e.subject_id ++ "_" ++ e.condition ++ "_" ++ e.task_id

/-- `validate_utils.verify_timestamps_inorder`, as the Bool "no exception
raised": the Python raises iff `timestamp_1 >= timestamp_2 and
previous_state_id != initial_state_id`. -/
def timestamps_inorder (timestamp_1 timestamp_2 : ℚ) (previous_state_id : StateId) : Bool :=
  if timestamp_1 ≥ timestamp_2 ∧ previous_state_id ≠ initial_state_id then false else true

/-- `validate_utils.valid_state_transitions`, in source order. -/
def valid_state_transitions : List (StateId × StateId) :=
  [ (.task_initialized, .task_execution),
    (.task_initialized, .km_pull_activity),
    (.task_initialized, .km_push_activity),
    (.task_initialized, .task_conclusion),
    (.task_execution, .task_execution),
    (.task_execution, .km_push_activity),
    (.km_push_activity, .task_execution),
    (.km_push_activity, .km_pull_activity),
    (.km_push_activity, .task_conclusion),
    (.km_pull_activity, .km_push_activity),
    (.km_pull_activity, .task_execution),
    (.km_pull_activity, .task_conclusion),
    (.task_execution, .km_pull_activity),
    (.task_execution, .task_conclusion) ]

/-- `validate_utils.verify_state_transition_valid` as the Bool "no exception
raised": the Python raises iff the pair is not in `valid_state_transitions`. -/
def state_transition_valid (state_id_1 state_id_2 : StateId) : Bool :=
  (state_id_1, state_id_2) ∈ valid_state_transitions

/-- Association-list lookup with Python dict key semantics. -/
def dictLookup {α : Type} (k : String) : List (String × α) → Option α
  | [] => none
  | (k', v) :: rest => if k' = k then some v else dictLookup k rest

/-- Association-list update with Python dict semantics: replace in place if
the key exists, otherwise append at the end (insertion order preserved). -/
def dictInsert {α : Type} (k : String) (v : α) : List (String × α) → List (String × α)
  | [] => [(k, v)]
  | (k', v') :: rest => if k' = k then (k, v) :: rest else (k', v') :: dictInsert k v rest

/-- The per-key entry of `subject_task_state` in
`file_utils.load_state_transitions_file`. -/
structure LastSeen where
  utc_timestamp : ℚ
  state_id : StateId
  line_no : Nat
deriving DecidableEq, Repr

/-- The record `load_state_transitions_file` builds per session key. -/
structure SubjectTaskRecord where
  subject_id : String
  condition : String
  task_id : String
  task_start_time : ℚ
  task_total_time : ℚ
  km_pull_total_time : ℚ
  km_push_total_time : ℚ
  state_transitions : List STEvent
deriving DecidableEq, Repr

/-- The exceptions `load_state_transitions_file` can raise (each Python
`ValueError` message carries the data recorded here).  `keyError` models the
`KeyError`/`IndexError` a missing dict key or empty list would raise; it is
unreachable on the paths proved below. -/
inductive LoadError where
  | outOfOrder (line_1 line_2 : Nat)
  | invalidTransition (line_1 line_2 : Nat)
  | invalidInitialState (key : String) (line : Nat)
  | invalidFinalState (key : String) (line : Nat)
  | keyError
deriving DecidableEq, Repr

/-- The fresh record created on the first event of a session key
(`state_transitions` starts as `[]` and the event is appended right after
the initial-state check, so it starts life as `[e]`). -/
def newRecord (e : STEvent) : SubjectTaskRecord :=
  { subject_id := e.subject_id
    condition := e.condition
    task_id := e.task_id
    task_start_time := e.utc_timestamp
    task_total_time := 0
    km_pull_total_time := 0
    km_push_total_time := 0
    state_transitions := [e] }

/-- The accumulation step of `load_state_transitions_file` for a key with a
previous event: `elapsed` is added to `task_total_time` always, and to the
pull/push totals when the *previous* state is the matching activity; the
event is appended to the embedded sequence. -/
def accumulate (r : SubjectTaskRecord) (prev : LastSeen) (e : STEvent) : SubjectTaskRecord :=
  let elapsed := e.utc_timestamp - prev.utc_timestamp
  { r with
    task_total_time := r.task_total_time + elapsed
    km_pull_total_time :=
      r.km_pull_total_time + (if prev.state_id = .km_pull_activity then elapsed else 0)
    km_push_total_time :=
      r.km_push_total_time + (if prev.state_id = .km_push_activity then elapsed else 0)
    state_transitions := r.state_transitions ++ [e] }

/-- The main `while line:` loop of `load_state_transitions_file`: `n` is the
1-based line number, `lastSeen` is `subject_task_state`, `recs` is
`state_transitions`. -/
def loadLoop : List STEvent → Nat → List (String × LastSeen) →
    List (String × SubjectTaskRecord) →
    Except LoadError (List (String × LastSeen) × List (String × SubjectTaskRecord))
  | [], _, lastSeen, recs => .ok (lastSeen, recs)
  | e :: rest, n, lastSeen, recs =>
    let key := sessionKey e
    match dictLookup key lastSeen with
    | some prev =>
      if timestamps_inorder prev.utc_timestamp e.utc_timestamp prev.state_id then
        if state_transition_valid prev.state_id e.state_id then
          match dictLookup key recs with
          | some r =>
            loadLoop rest (n + 1)
              (dictInsert key ⟨e.utc_timestamp, e.state_id, n⟩ lastSeen)
              (dictInsert key (accumulate r prev e) recs)
          | none => .error .keyError
        else .error (.invalidTransition prev.line_no n)
      else .error (.outOfOrder prev.line_no n)
    | none =>
      if e.state_id = .task_initialized then
        loadLoop rest (n + 1)
          (dictInsert key ⟨e.utc_timestamp, e.state_id, n⟩ lastSeen)
          (dictInsert key (newRecord e) recs)
      else .error (.invalidInitialState key n)

/-- The trailing `for subject_task_identifier in state_transitions:` loop of
`load_state_transitions_file`: `verify_last_state_is_task_conclusion` on each
accumulated sequence, with the line number of the key's last-seen event. -/
def finalCheck : List (String × SubjectTaskRecord) → List (String × LastSeen) →
    Except LoadError Unit
  | [], _ => .ok ()
  | (k, r) :: rest, lastSeen =>
    match dictLookup k lastSeen with
    | none => .error .keyError
    | some p =>
      match r.state_transitions.getLast? with
      | none => .error .keyError
      | some ev =>
        if ev.state_id = .task_conclusion then finalCheck rest lastSeen
        else .error (.invalidFinalState k p.line_no)

/-- `file_utils.load_state_transitions_file`, over the already-parsed list of
events (one per JSONL line, in file order). -/
def load_state_transitions (events : List STEvent) :
    Except LoadError (List (String × SubjectTaskRecord)) :=
  match loadLoop events 1 [] [] with
  | .error err => .error err
  | .ok (lastSeen, recs) =>
    match finalCheck recs lastSeen with
    | .error err => .error err
    | .ok _ => .ok recs

/-- Spec-side sum (from the claim's words): the sum of all consecutive
timestamp deltas of a sequence. -/
def sumDeltas : List STEvent → ℚ
  | e1 :: e2 :: rest => (e2.utc_timestamp - e1.utc_timestamp) + sumDeltas (e2 :: rest)
  | _ => 0

/-- Spec-side sum: deltas whose preceding event is `km_pull_activity`. -/
def sumPullDeltas : List STEvent → ℚ
  | e1 :: e2 :: rest =>
    (if e1.state_id = .km_pull_activity then e2.utc_timestamp - e1.utc_timestamp else 0) +
      sumPullDeltas (e2 :: rest)
  | _ => 0

/-- Spec-side sum: deltas whose preceding event is `km_push_activity`. -/
def sumPushDeltas : List STEvent → ℚ
  | e1 :: e2 :: rest =>
    (if e1.state_id = .km_push_activity then e2.utc_timestamp - e1.utc_timestamp else 0) +
      sumPushDeltas (e2 :: rest)
  | _ => 0

/-- The loader's pairwise checks chained along a sequence, starting from a
previous timestamp/state: exactly the per-pair conditions under which
`load_state_transitions_file` raises no ordering/transition error. -/
def chainLegal (t : ℚ) (s : StateId) : List STEvent → Bool
  | [] => true
  | e :: rest =>
    timestamps_inorder t e.utc_timestamp s &&
      state_transition_valid s e.state_id &&
      chainLegal e.utc_timestamp e.state_id rest

/-- The `subject_task_state` entry left behind after folding a sequence, given
the entry for the previous event. -/
def finalLS (t : ℚ) (s : StateId) (ln : Nat) : Nat → List STEvent → LastSeen
  | _, [] => ⟨t, s, ln⟩
  | n, e :: rest => finalLS e.utc_timestamp e.state_id n (n + 1) rest

/-- `sumDeltas` seen from a previous timestamp: what the loop adds to
`task_total_time` while folding a tail of events. -/
def chainTotal (t : ℚ) : List STEvent → ℚ
  | [] => 0
  | e :: rest => (e.utc_timestamp - t) + chainTotal e.utc_timestamp rest

/-- `sumPullDeltas` seen from a previous timestamp and state. -/
def chainPull (t : ℚ) (s : StateId) : List STEvent → ℚ
  | [] => 0
  | e :: rest =>
    (if s = .km_pull_activity then e.utc_timestamp - t else 0) +
      chainPull e.utc_timestamp e.state_id rest

/-- `sumPushDeltas` seen from a previous timestamp and state. -/
def chainPush (t : ℚ) (s : StateId) : List STEvent → ℚ
  | [] => 0
  | e :: rest =>
    (if s = .km_push_activity then e.utc_timestamp - t else 0) +
      chainPush e.utc_timestamp e.state_id rest

/-- Scenario A of the spec, event 1: `(t=0, task_initialized)`. -/
def sA0 : STEvent := ⟨"U1", "prototype", "Task1", 0, .task_initialized⟩

/-- Scenario A of the spec, event 2: `(t=0, km_pull_activity)`. -/
def sA1 : STEvent := ⟨"U1", "prototype", "Task1", 0, .km_pull_activity⟩

/-- Scenario A of the spec, event 3: `(t=30, task_execution)`. -/
def sA2 : STEvent := ⟨"U1", "prototype", "Task1", 30, .task_execution⟩

/-- Scenario A of the spec, event 4: `(t=90, task_conclusion)`. -/
def sA3 : STEvent := ⟨"U1", "prototype", "Task1", 90, .task_conclusion⟩

/-- A `task_initialized` event at t=10 (first event of a session). -/
def evInit10 : STEvent := ⟨"U", "prototype", "T", 10, .task_initialized⟩

/-- A `task_conclusion` event at t=5,*earlier* than `evInit10`. -/
def evConcl5 : STEvent := ⟨"U", "prototype", "T", 5, .task_conclusion⟩

/-- A `task_execution` event at t=3. -/
def evExec3 : STEvent := ⟨"U", "prototype", "T", 3, .task_execution⟩

/-- The record `load_state_transitions` produces for
`[evInit10, evConcl5]`: its `task_total_time` is `5 - 10 = -5`. -/
def negRec : SubjectTaskRecord :=
  { subject_id := "U", condition := "prototype", task_id := "T"
    task_start_time := 10, task_total_time := -5
    km_pull_total_time := 0, km_push_total_time := 0
    state_transitions := [evInit10, evConcl5] }

/-! ### Directory reconciliation (`file_utils.load_directory`)

A record as seen by the cross-file merge: the merge logic reads
`task_total_time`, `km_pull_total_time`, the optional embedded
`state_transitions` list, the transient `file_source`, and compares whole
records for equality; every other field is carried opaquely in
`other_fields`. -/

/-- `file_utils.TIME_DIFFERENCE_THRESHOLD`. -/
def TIME_DIFFERENCE_THRESHOLD : ℚ := 1

/-- A loaded JSONL record as the directory merge manipulates it. -/
structure DirRecord where
  task_total_time : ℚ
  km_pull_total_time : ℚ
  state_transitions : Option (List STEvent)
  other_fields : List (String × String)
  file_source : Option String
deriving DecidableEq, Repr

/-- Set the transient provenance field, as `load_directory` does when a
record is first adopted or re-based. -/
def addSource (filename : String) (r : DirRecord) : DirRecord :=
  { r with file_source := some filename }

/-- Drop the transient provenance field (`del comparable_contents["file_source"]`);
a freshly loaded record carries none, so the merge's equality check compares
`incoming` against `stripSource existing`. -/
def stripSource (r : DirRecord) : DirRecord :=
  { r with file_source := none }

/-- The non-fatal consistency warnings printed by `load_directory`. -/
inductive Warning where
  | conflictingTotalTime (key : String) (recorded new : ℚ)
      (recordedFile : Option String) (newFile : String)
  | conflictingPullTime (key : String) (recorded new : ℚ)
      (recordedFile : Option String) (newFile : String)
deriving DecidableEq, Repr

/-- The fatal `ValueError`s raised by `load_directory`'s merge. -/
inductive MergeError where
  | conflictingStateTransitions (key : String) (recordedFile : Option String) (newFile : String)
  | conflictingSubjectTask (key : String) (recordedFile : Option String) (newFile : String)
deriving DecidableEq, Repr

/-- The body of `load_directory`'s `else` branch (lines 57-98): the incoming
record for a key that already exists is compared and merged with the
existing one.  Warnings are computed first (emitted only when a time differs
by *more than* the threshold), then the four `state_transitions` cases. -/
def mergeEntry (key : String) (existing incoming : DirRecord) (newFile : String) :
    Except MergeError (DirRecord × List Warning) :=
  let w1 : List Warning :=
    if |existing.task_total_time - incoming.task_total_time| > TIME_DIFFERENCE_THRESHOLD then
      [.conflictingTotalTime key existing.task_total_time incoming.task_total_time
        existing.file_source newFile]
    else []
  let w2 : List Warning :=
    if |existing.km_pull_total_time - incoming.km_pull_total_time| > TIME_DIFFERENCE_THRESHOLD then
      [.conflictingPullTime key existing.km_pull_total_time incoming.km_pull_total_time
        existing.file_source newFile]
    else []
  match existing.state_transitions, incoming.state_transitions with
  | some sts, none =>
    .ok ({ incoming with state_transitions := some sts, file_source := some newFile }, w1 ++ w2)
  | none, some sts =>
    .ok ({ existing with state_transitions := some sts }, w1 ++ w2)
  | some _, some _ =>
    if incoming = stripSource existing then .ok (existing, w1 ++ w2)
    else .error (.conflictingStateTransitions key existing.file_source newFile)
  | none, none =>
    if incoming = stripSource existing then .ok (existing, w1 ++ w2)
    else .error (.conflictingSubjectTask key existing.file_source newFile)

/-- The `for entry in file_contents:` loop of `load_directory` for one JSONL
file: new keys are adopted (stamped with the file name), existing keys are
merged via `mergeEntry`. -/
def mergeFile (filename : String) : List (String × DirRecord) →
    List (String × DirRecord) → List Warning →
    Except MergeError (List (String × DirRecord) × List Warning)
  | [], acc, ws => .ok (acc, ws)
  | (key, rec) :: rest, acc, ws =>
    match dictLookup key acc with
    | none => mergeFile filename rest (dictInsert key (addSource filename rec) acc) ws
    | some existing =>
      match mergeEntry key existing rec filename with
      | .error err => .error err
      | .ok (merged, ws2) => mergeFile filename rest (dictInsert key merged acc) (ws ++ ws2)

/-- The `for filename in dir_contents:` loop of `load_directory`, restricted
to its JSONL branch: each file's already-loaded contents are merged into the
growing `jsonl_contents` mapping. -/
def loadDirLoop : List (String × List (String × DirRecord)) →
    List (String × DirRecord) → List Warning →
    Except MergeError (List (String × DirRecord) × List Warning)
  | [], acc, ws => .ok (acc, ws)
  | (fname, entries) :: rest, acc, ws =>
    match mergeFile fname entries acc ws with
    | .error err => .error err
    | .ok (acc2, ws2) => loadDirLoop rest acc2 ws2

/-- `file_utils.load_directory` over the parsed per-file JSONL contents (in
directory listing order), returning the reconciled mapping and the printed
warnings. -/
def load_directory (files : List (String × List (String × DirRecord))) :
    Except MergeError (List (String × DirRecord) × List Warning) :=
  loadDirLoop files [] []

/-- Opaque non-time fields shared by the Scenario B records. -/
def bRest : List (String × String) :=
  [("subject_id", "U1"), ("condition", "prototype"), ("task_id", "Task1")]

/-- Scenario B record one: pre-aggregated, `task_total_time = 100.0`. -/
def b100 : DirRecord :=
  { task_total_time := 100, km_pull_total_time := 20
    state_transitions := none, other_fields := bRest, file_source := none }

/-- Scenario B record two: pre-aggregated, `task_total_time = 100.4`. -/
def b1004 : DirRecord := { b100 with task_total_time := 100.4 }

/-- A transition-derived sibling of `b100`: same times, carries an embedded
`state_transitions` sequence. -/
def bT : DirRecord := { b100 with state_transitions := some [sA0] }

/-- A record for the idempotence witness. -/
def wrec : DirRecord :=
  { task_total_time := 90, km_pull_total_time := 30
    state_transitions := some [sA0, sA1, sA2, sA3]
    other_fields := [("subject_id", "U1")], file_source := none }

/-! ### Schema validation (`validate_utils`) -/

/-- `validate_utils.conditions`. -/
def conditions : List String := ["prototype", "baseline"]

/-- `validate_utils.state_ids` (the raw string vocabulary checked by the
type checker before events reach the loader). -/
def state_ids : List String :=
  ["task_initialized", "task_execution", "km_push_activity", "km_pull_activity",
   "task_conclusion"]

/-- A parsed JSON field value as the validators see it.  Python `bool` is a
subclass of `int`, which `isinstanceOne` reflects.  List/dict payloads are
irrelevant to every check and are not carried. -/
inductive PyVal where
  | pstr (s : String)
  | pint (n : Int)
  | pfloat (q : ℚ)
  | pbool (b : Bool)
  | plist
  | pdict
  | pdatetime (t : ℚ)
deriving DecidableEq, Repr

/-- The Python classes appearing in the two schemas. -/
inductive PyType where
  | tstr
  | tint
  | tfloat
  | tbool
  | tlist
  | tdict
  | tdatetime
deriving DecidableEq, Repr

/-- Python `isinstance` against one class (`bool` counts as `int`). -/
def isinstanceOne : PyVal → PyType → Bool
  | .pstr _, .tstr => true
  | .pint _, .tint => true
  | .pbool _, .tint => true
  | .pbool _, .tbool => true
  | .pfloat _, .tfloat => true
  | .plist, .tlist => true
  | .pdict, .tdict => true
  | .pdatetime _, .tdatetime => true
  | _, _ => false

/-- Python `isinstance` against a union of classes. -/
def isinstance (v : PyVal) (ts : List PyType) : Bool :=
  ts.any (isinstanceOne v)

/-- The field names of `validate_utils.subject_task_schema`, in source order. -/
def subject_task_schema_fields : List String :=
  ["subject_id", "condition", "task_id", "task_start_time", "task_total_time",
   "km_pull_total_time", "km_push_total_time", "task_grade",
   "corpus_knowledge_nugget_count", "expert_captured_knowledge_nugget_count",
   "nugget_content", "task_timeout", "optional_content"]

/-- The declared type of each `subject_task_schema` field (`condition` maps
to the enumerated value list, handled separately by the type checker, so it
carries no class here; unknown fields have no declared type). -/
def subject_task_types : String → Option (List PyType)
  | "subject_id" => some [.tstr, .tint]
  | "task_id" => some [.tstr, .tint]
  | "task_start_time" => some [.tdatetime]
  | "task_total_time" => some [.tfloat, .tint]
  | "km_pull_total_time" => some [.tfloat, .tint]
  | "km_push_total_time" => some [.tfloat, .tint]
  | "task_grade" => some [.tstr, .tint, .tfloat]
  | "corpus_knowledge_nugget_count" => some [.tint]
  | "expert_captured_knowledge_nugget_count" => some [.tint]
  | "nugget_content" => some [.tlist]
  | "task_timeout" => some [.tbool]
  | "optional_content" => some [.tdict]
  | _ => none

/-- The field names of `validate_utils.state_transition_schema`. -/
def state_transition_schema_fields : List String :=
  ["subject_id", "condition", "task_id", "utc_timestamp", "state_id",
   "optional_content"]

/-- The declared type of each `state_transition_schema` field (`condition`
and `state_id` map to enumerated value lists, handled separately). -/
def state_transition_types : String → Option (List PyType)
  | "subject_id" => some [.tstr, .tint]
  | "task_id" => some [.tstr, .tint]
  | "utc_timestamp" => some [.tdatetime]
  | "optional_content" => some [.tdict]
  | _ => none

/-- The shared presence-check loop: raise on the first schema field that is
absent from the input, `optional_content` excepted. -/
def fieldsPresent (schema : List String) (input : List (String × PyVal)) :
    Except String Unit :=
  match schema with
  | [] => .ok ()
  | attr :: rest =>
    if (dictLookup attr input).isNone ∧ attr ≠ "optional_content" then
      .error ("Attribute " ++ attr ++ " not found")
    else fieldsPresent rest input

/-- `validate_utils.verify_all_subject_task_fields_present`. -/
def verify_all_subject_task_fields_present (input : List (String × PyVal)) :
    Except String Unit :=
  fieldsPresent subject_task_schema_fields input

/-- `validate_utils.verify_all_state_transition_fields_present`. -/
def verify_all_state_transition_fields_present (input : List (String × PyVal)) :
    Except String Unit :=
  fieldsPresent state_transition_schema_fields input

/-- `validate_utils.type_check_subject_task_fields`: iterate over the input
fields; `condition` is checked against the enumerated list; a field with a
declared type is `isinstance`-checked; a field with no declared type raises
`KeyError`, which the code catches and skips. -/
def type_check_subject_task_fields : List (String × PyVal) → Except String Unit
  | [] => .ok ()
  | (attr, v) :: rest =>
    if attr = "condition" then
      if (conditions.map PyVal.pstr).contains v then type_check_subject_task_fields rest
      else .error "condition is not one of the allowed conditions"
    else
      match subject_task_types attr with
      | some ts =>
        if isinstance v ts then type_check_subject_task_fields rest
        else .error (attr ++ " is not of the declared type")
      | none => type_check_subject_task_fields rest

/-- `validate_utils.type_check_state_transition_fields`: like the
subject-task checker, with `state_id` additionally checked against the
enumerated state list. -/
def type_check_state_transition_fields : List (String × PyVal) → Except String Unit
  | [] => .ok ()
  | (attr, v) :: rest =>
    if attr = "state_id" then
      if (state_ids.map PyVal.pstr).contains v then type_check_state_transition_fields rest
      else .error "state_id is not one of the allowed states"
    else if attr = "condition" then
      if (conditions.map PyVal.pstr).contains v then type_check_state_transition_fields rest
      else .error "condition is not one of the allowed conditions"
    else
      match state_transition_types attr with
      | some ts =>
        if isinstance v ts then type_check_state_transition_fields rest
        else .error (attr ++ " is not of the declared type")
      | none => type_check_state_transition_fields rest

/-! ### Task-metadata CSV validation (`validate_utils` and
`file_utils.load_csv_file`) -/

/-- `validate_utils.verify_column_names`'s required names. -/
def required_column_names : List String :=
  ["task_id", "task_optimal_time_in_seconds", "task_maximum_score"]

/-- `validate_utils.verify_column_names`'s optional names. -/
def optional_column_names : List String := ["task_passing_score"]

/-- `validate_utils.verify_column_names`: the missing set is
`required - column_names`; the extra set is `column_names - required` with
optional names then removed (the Python removes them from the list while
iterating it, but since the extras are a set and only one optional name
exists, the net effect is exactly this filter); either set non-empty is
fatal.  Column order is never consulted. -/
def verify_column_names (column_names : List String) : Except String Unit :=
  let missing_columns := required_column_names.filter (fun c => ! column_names.contains c)
  let extra_columns :=
    (column_names.filter (fun c => ! required_column_names.contains c)).filter
      (fun c => ! optional_column_names.contains c)
  if missing_columns.isEmpty then
    if extra_columns.isEmpty then .ok ()
    else .error "Extra columns in CSV metadata file"
  else .error "Missing columns in CSV metadata file" 

/-- A CSV cell after `verify_row_types`: the raw string, or the value the
row type converter replaced it with. -/
inductive Cell where
  | cstr (s : String)
  | cfloat (q : ℚ)
  | cint (n : Int)
deriving DecidableEq, Repr

/-- Numeric value of a digit run. -/
def digitsVal (cs : List Char) : Nat :=
  cs.foldl (fun acc c => 10 * acc + (c.toNat - 48)) 0

/-- Non-empty run of decimal digits. -/
def allDigits (cs : List Char) : Bool :=
  ¬ cs.isEmpty && cs.all Char.isDigit

/-- Modelled from Python's built-in `int(...)` on strings, decimal core: an
optional sign followed by a non-empty digit run (whitespace tolerance and
underscore separators are not modelled; no claim depends on them). -/
def pyInt (s : String) : Option Int :=
  match s.toList with
  | '-' :: rest => if allDigits rest then some (-(digitsVal rest : Int)) else none
  | '+' :: rest => if allDigits rest then some (digitsVal rest) else none
  | cs => if allDigits cs then some (digitsVal cs) else none

/-- Unsigned decimal float body: `digits`, `digits.`, `.digits` or
`digits.digits`. -/
def pyFloatCore (cs : List Char) : Option ℚ :=
  let intPart := cs.takeWhile (fun c => c ≠ '.')
  match cs.dropWhile (fun c => c ≠ '.') with
  | [] => if allDigits intPart then some (digitsVal intPart) else none
  | '.' :: frac =>
    if (intPart.all Char.isDigit && frac.all Char.isDigit) &&
        ¬ (intPart.isEmpty && frac.isEmpty) then
      some ((digitsVal intPart : ℚ) + (digitsVal frac : ℚ) / (10 : ℚ) ^ frac.length)
    else none
  | _ :: _ => none

/-- Modelled from Python's built-in `float(...)` on strings, decimal core
(exponents, `inf`/`nan` and whitespace tolerance are not modelled; no claim
depends on them). -/
def pyFloat (s : String) : Option ℚ :=
  match s.toList with
  | '-' :: rest => (pyFloatCore rest).map (fun q => -q)
  | '+' :: rest => pyFloatCore rest
  | cs => pyFloatCore cs

/-- `validate_utils.verify_row_types`: converts `row[1]` with `float`,
`row[2]` with `int`, and `row[3]` with `float` when it exists and is
non-blank, by position only (the function never sees the header); a row
shorter than three cells would raise `IndexError` in the Python. -/
def verify_row_types : List String → Except String (List Cell)
  | c0 :: c1 :: c2 :: [] =>
    (match pyFloat c1 with
    | none => .error "CSV metadata file: could not convert string to float"
    | some q1 =>
      match pyInt c2 with
      | none => .error "CSV metadata file: invalid literal for int"
      | some n2 => .ok [.cstr c0, .cfloat q1, .cint n2])
  | c0 :: c1 :: c2 :: c3 :: more =>
    (match pyFloat c1 with
    | none => .error "CSV metadata file: could not convert string to float"
    | some q1 =>
      match pyInt c2 with
      | none => .error "CSV metadata file: invalid literal for int"
      | some n2 =>
        if c3 = "" then
          .ok ([.cstr c0, .cfloat q1, .cint n2, .cstr c3] ++ more.map .cstr)
        else
          match pyFloat c3 with
          | none => .error "CSV metadata file: could not convert string to float"
          | some q3 =>
            .ok ([.cstr c0, .cfloat q1, .cint n2, .cfloat q3] ++ more.map .cstr))
  | _ => .error "IndexError"

end KMEval

namespace KMEval

theorem dictLookup_singleton {α : Type} (k : String) (v : α) :
    dictLookup k [(k, v)] = some v := by
  simp [dictLookup]

theorem dictInsert_singleton {α : Type} (k : String) (v w : α) :
    dictInsert k w [(k, v)] = [(k, w)] := by
  simp [dictInsert]

theorem sumDeltas_cons (e : STEvent) (es : List STEvent) :
    sumDeltas (e :: es) = chainTotal e.utc_timestamp es := by
  induction es generalizing e with
  | nil => simp [sumDeltas, chainTotal]
  | cons e2 rest ih => simp [sumDeltas, chainTotal, ih]

theorem sumPullDeltas_cons (e : STEvent) (es : List STEvent) :
    sumPullDeltas (e :: es) = chainPull e.utc_timestamp e.state_id es := by
  induction es generalizing e with
  | nil => simp [sumPullDeltas, chainPull]
  | cons e2 rest ih => simp [sumPullDeltas, chainPull, ih]

theorem sumPushDeltas_cons (e : STEvent) (es : List STEvent) :
    sumPushDeltas (e :: es) = chainPush e.utc_timestamp e.state_id es := by
  induction es generalizing e with
  | nil => simp [sumPushDeltas, chainPush]
  | cons e2 rest ih => simp [sumPushDeltas, chainPush, ih]

/-- Folding a tail of single-session events whose pairwise checks all pass:
the loop returns, accumulating exactly the chained timestamp deltas and
appending the events in order. -/
theorem loadLoop_single (k : String) (es : List STEvent) :
    ∀ (t : ℚ) (s : StateId) (ln n : Nat) (r : SubjectTaskRecord),
      (∀ e ∈ es, sessionKey e = k) →
      chainLegal t s es = true →
      loadLoop es n [(k, ⟨t, s, ln⟩)] [(k, r)] =
        .ok ([(k, finalLS t s ln n es)],
          [(k, { r with
            task_total_time := r.task_total_time + chainTotal t es
            km_pull_total_time := r.km_pull_total_time + chainPull t s es
            km_push_total_time := r.km_push_total_time + chainPush t s es
            state_transitions := r.state_transitions ++ es })]) := by
  induction es with
  | nil =>
    intro t s ln n r _ _
    simp [loadLoop, finalLS, chainTotal, chainPull, chainPush]
  | cons e rest ih =>
    intro t s ln n r hkey hchain
    have hke : sessionKey e = k := hkey e (List.mem_cons_self e rest)
    simp only [chainLegal, Bool.and_eq_true] at hchain
    obtain ⟨⟨h1, h2⟩, h3⟩ := hchain
    rw [loadLoop]
    simp only [hke, dictLookup_singleton, h1, h2, if_true, dictInsert_singleton]
    rw [ih e.utc_timestamp e.state_id n (n + 1) (accumulate r ⟨t, s, ln⟩ e)
      (fun x hx => hkey x (List.mem_cons_of_mem e hx)) h3]
    simp only [accumulate, finalLS, chainTotal, chainPull, chainPush]
    simp [add_assoc, List.append_assoc]

/-- C1: for every legal event sequence of one session key — first state
`task_initialized`, last state `task_conclusion`, every consecutive pair
passing the loader's ordering check (which strictly increasing timestamps
satisfy) and edge check — the state-transitions loader succeeds and produces
the record whose `task_total_time` is the sum of all consecutive timestamp
deltas, `km_pull_total_time`/`km_push_total_time` are the sums of deltas
whose preceding event's state is the matching activity, and
`task_start_time` is the first event's timestamp. -/
theorem c1 (e0 : STEvent) (es : List STEvent)
    (hkey : ∀ e ∈ es, sessionKey e = sessionKey e0)
    (hinit : e0.state_id = .task_initialized)
    (hlast : ∃ el, (e0 :: es).getLast? = some el ∧ el.state_id = .task_conclusion)
    (hchain : chainLegal e0.utc_timestamp e0.state_id es = true) :
    load_state_transitions (e0 :: es) =
      .ok [(sessionKey e0,
        { subject_id := e0.subject_id
          condition := e0.condition
          task_id := e0.task_id
          task_start_time := e0.utc_timestamp
          task_total_time := sumDeltas (e0 :: es)
          km_pull_total_time := sumPullDeltas (e0 :: es)
          km_push_total_time := sumPushDeltas (e0 :: es)
          state_transitions := e0 :: es })] := by
  obtain ⟨el, hel, helc⟩ := hlast
  rw [load_state_transitions, loadLoop]
  simp only [dictLookup, hinit, if_true, reduceIte, dictInsert]
  rw [loadLoop_single (sessionKey e0) es e0.utc_timestamp .task_initialized 1 2
    (newRecord e0) hkey (hinit ▸ hchain)]
  have hrec : ({ newRecord e0 with
      task_total_time := (newRecord e0).task_total_time + chainTotal e0.utc_timestamp es
      km_pull_total_time :=
        (newRecord e0).km_pull_total_time + chainPull e0.utc_timestamp .task_initialized es
      km_push_total_time :=
        (newRecord e0).km_push_total_time + chainPush e0.utc_timestamp .task_initialized es
      state_transitions := (newRecord e0).state_transitions ++ es } : SubjectTaskRecord) =
      { subject_id := e0.subject_id
        condition := e0.condition
        task_id := e0.task_id
        task_start_time := e0.utc_timestamp
        task_total_time := sumDeltas (e0 :: es)
        km_pull_total_time := sumPullDeltas (e0 :: es)
        km_push_total_time := sumPushDeltas (e0 :: es)
        state_transitions := e0 :: es } := by
    simp [newRecord, sumDeltas_cons, sumPullDeltas_cons, sumPushDeltas_cons, hinit]
  rw [hrec]
  have : (e0 :: es).getLast? = some el := hel
  simp only [finalCheck, dictLookup_singleton, this, helc, if_true, reduceIte]

/-- C1 witness: Scenario A — events
`[(t=0, task_initialized), (t=0, km_pull_activity), (t=30, task_execution),
(t=90, task_conclusion)]` yield `task_total_time = 90`,
`km_pull_total_time = 30`, `km_push_total_time = 0`, `task_start_time = 0`. -/
theorem c1_witness :
    load_state_transitions [sA0, sA1, sA2, sA3] =
      .ok [("U1_prototype_Task1",
        { subject_id := "U1"
          condition := "prototype"
          task_id := "Task1"
          task_start_time := 0
          task_total_time := 90
          km_pull_total_time := 30
          km_push_total_time := 0
          state_transitions := [sA0, sA1, sA2, sA3] })] := by
  have h := c1 sA0 [sA1, sA2, sA3]
    (by intro e he; fin_cases he <;> rfl)
    rfl
    ⟨sA3, rfl, rfl⟩
    (by norm_num [chainLegal, timestamps_inorder, state_transition_valid,
      valid_state_transitions, initial_state_id, sA0, sA1, sA2, sA3])
  refine h.trans ?_
  norm_num [sumDeltas, sumPullDeltas, sumPushDeltas, sA0, sA1, sA2, sA3, sessionKey]
  refine ⟨by decide, by decide, ?_⟩
  rw [if_neg (by decide), if_neg (by decide)]
  norm_num

/-- The exact acceptance condition of `verify_timestamps_inorder`: it raises
iff `t1 >= t2` *and* the previous state is not `task_initialized`, so it
accepts iff `t1 < t2` or the previous state is `task_initialized` —
with no constraint at all on the timestamps in the latter case. -/
theorem timestamps_inorder_iff (t1 t2 : ℚ) (s : StateId) :
    timestamps_inorder t1 t2 s = true ↔ (t1 < t2 ∨ s = initial_state_id) := by
  by_cases h : t1 ≥ t2 ∧ s ≠ initial_state_id
  · simp only [timestamps_inorder, if_pos h, Bool.false_eq_true, false_iff]
    rintro (hlt | hs)
    · exact absurd hlt (not_lt.mpr h.1)
    · exact h.2 hs
  · simp only [timestamps_inorder, if_neg h, true_iff]
    rcases not_and_or.mp h with h1 | h2
    · exact Or.inl (not_le.mp h1)
    · exact Or.inr (not_not.mp h2)

/-- C2 counterexample: at `t1 = 1`, `t2 = 0`, previous state
`task_initialized`, the ordering check *succeeds* even though `t2 < t1`,
refuting "succeeds if and only if t2 > t1, or t2 >= t1 and the first
event's state is task_initialized" (and in particular "fails whenever
t2 < t1"). -/
theorem c2_counterexample :
    ¬ (timestamps_inorder 1 0 .task_initialized = true ↔
        ((0 : ℚ) > 1 ∨ ((0 : ℚ) ≥ 1 ∧ StateId.task_initialized = initial_state_id))) := by
  intro h
  rcases h.mp (by norm_num [timestamps_inorder, initial_state_id]) with h1 | h2
  · exact absurd h1 (by norm_num)
  · exact absurd h2.1 (by norm_num)

/-- C2 amended: the ordering check of the state-transitions loader succeeds
iff `t2 > t1` *or* the preceding event's state is `task_initialized`
(regardless of the timestamps in that case); whenever it fails, the loader
aborts with the out-of-order error carrying both line numbers.  Accepted
consecutive timestamps are therefore non-decreasing only after a
non-`task_initialized` event. -/
theorem c2_amended :
    (∀ (t1 t2 : ℚ) (s : StateId),
      timestamps_inorder t1 t2 s = true ↔ (t1 < t2 ∨ s = initial_state_id)) ∧
    (∀ (e : STEvent) (es : List STEvent) (n : Nat)
        (ls : List (String × LastSeen)) (recs : List (String × SubjectTaskRecord))
        (prev : LastSeen),
      dictLookup (sessionKey e) ls = some prev →
      timestamps_inorder prev.utc_timestamp e.utc_timestamp prev.state_id = false →
      loadLoop (e :: es) n ls recs = .error (.outOfOrder prev.line_no n)) := by
  refine ⟨timestamps_inorder_iff, ?_⟩
  intro e es n ls recs prev hlook htime
  rw [loadLoop]
  simp only [hlook, htime, Bool.false_eq_true, if_false, reduceIte]

/-- C2 witness: the checks and the loader abort evaluated at concrete
inputs — the check accepts `t1 = 0 < t2 = 5`, and the loader raises the
out-of-order error on a pair going from t=5 (state `task_execution`, line 1)
back to t=3. -/
theorem c2_amended_witness :
    timestamps_inorder 0 5 .task_execution = true ∧
    loadLoop [evExec3] 2 [("U_prototype_T", ⟨5, .task_execution, 1⟩)]
      [("U_prototype_T", newRecord evInit10)] = .error (.outOfOrder 1 2) := by
  constructor
  · exact (c2_amended.1 0 5 .task_execution).mpr (Or.inl (by norm_num))
  · exact c2_amended.2 evExec3 [] 2 [("U_prototype_T", ⟨5, .task_execution, 1⟩)]
      [("U_prototype_T", newRecord evInit10)] ⟨5, .task_execution, 1⟩
      (by simp [sessionKey, evExec3, dictLookup])
      (by norm_num [timestamps_inorder, initial_state_id, evExec3]; decide)

/-- C4: the transition check succeeds iff the ordered pair of state ids is
in the fixed 14-edge set of the claim; the only legal self-loop is
`task_execution → task_execution`, and in particular
`km_pull_activity → km_pull_activity` fails. -/
theorem c4 :
    (∀ s1 s2 : StateId, state_transition_valid s1 s2 = true ↔
      ((s1 = .task_initialized ∧ (s2 = .task_execution ∨ s2 = .km_pull_activity ∨
          s2 = .km_push_activity ∨ s2 = .task_conclusion)) ∨
       (s1 = .task_execution ∧ (s2 = .task_execution ∨ s2 = .km_push_activity ∨
          s2 = .km_pull_activity ∨ s2 = .task_conclusion)) ∨
       (s1 = .km_push_activity ∧ (s2 = .task_execution ∨ s2 = .km_pull_activity ∨
          s2 = .task_conclusion)) ∨
       (s1 = .km_pull_activity ∧ (s2 = .km_push_activity ∨ s2 = .task_execution ∨
          s2 = .task_conclusion)))) ∧
    (∀ s : StateId, state_transition_valid s s = true ↔ s = .task_execution) ∧
    state_transition_valid .km_pull_activity .km_pull_activity = false := by
  refine ⟨?_, ?_, by decide⟩
  · intro s1 s2
    cases s1 <;> cases s2 <;> decide
  · intro s
    cases s <;> decide

theorem dictLookup_insert {α : Type} (k k2 : String) (v : α) (l : List (String × α)) :
    dictLookup k (dictInsert k2 v l) = if k2 = k then some v else dictLookup k l := by
  induction l with
  | nil => simp [dictInsert, dictLookup]
  | cons p rest ih =>
    obtain ⟨k0, v0⟩ := p
    by_cases h0 : k0 = k2
    · subst h0
      by_cases h1 : k0 = k
      · subst h1
        simp [dictInsert, dictLookup]
      · simp [dictInsert, dictLookup, h1]
    · by_cases h1 : k0 = k
      · subst h1
        have h2 : k2 ≠ k0 := fun h => h0 h.symm
        simp [dictInsert, dictLookup, h0, h2]
      · simp [dictInsert, dictLookup, h0, h1, ih]

/-- Any per-record property that holds of freshly created records and is
preserved by the accumulation step (under the ordering check that guarded
it) holds of every record in the mapping the loader loop returns. -/
theorem loadLoop_preserves (P : SubjectTaskRecord → Prop)
    (hnew : ∀ e : STEvent, e.state_id = .task_initialized → P (newRecord e))
    (hupd : ∀ (r : SubjectTaskRecord) (prev : LastSeen) (e : STEvent),
      P r → timestamps_inorder prev.utc_timestamp e.utc_timestamp prev.state_id = true →
      P (accumulate r prev e)) :
    ∀ (events : List STEvent) (n : Nat) (ls : List (String × LastSeen))
      (recs : List (String × SubjectTaskRecord)) (ls2 : List (String × LastSeen))
      (recs2 : List (String × SubjectTaskRecord)),
      loadLoop events n ls recs = .ok (ls2, recs2) →
      (∀ k r, dictLookup k recs = some r → P r) →
      ∀ k r, dictLookup k recs2 = some r → P r := by
  intro events
  induction events with
  | nil =>
    intro n ls recs ls2 recs2 h hP
    rw [loadLoop] at h
    injection h with h
    injection h with h1 h2
    subst h2
    exact hP
  | cons e rest ih =>
    intro n ls recs ls2 recs2 h hP
    rw [loadLoop] at h
    cases hls : dictLookup (sessionKey e) ls with
    | some prev =>
      simp only [hls] at h
      by_cases ht : timestamps_inorder prev.utc_timestamp e.utc_timestamp prev.state_id = true
      · rw [if_pos ht] at h
        by_cases hv : state_transition_valid prev.state_id e.state_id = true
        · rw [if_pos hv] at h
          cases hr : dictLookup (sessionKey e) recs with
          | some r0 =>
            simp only [hr] at h
            refine ih (n + 1) _ _ ls2 recs2 h ?_
            intro k r hk
            rw [dictLookup_insert] at hk
            by_cases hkk : sessionKey e = k
            · rw [if_pos hkk] at hk
              injection hk with hk
              subst hk
              exact hupd r0 prev e (hP _ _ hr) ht
            · rw [if_neg hkk] at hk
              exact hP _ _ hk
          | none => simp only [hr] at h; exact absurd h (by simp)
        · rw [if_neg hv] at h; exact absurd h (by simp)
      · rw [if_neg ht] at h; exact absurd h (by simp)
    | none =>
      simp only [hls] at h
      by_cases hi : e.state_id = .task_initialized
      · rw [if_pos hi] at h
        refine ih (n + 1) _ _ ls2 recs2 h ?_
        intro k r hk
        rw [dictLookup_insert] at hk
        by_cases hkk : sessionKey e = k
        · rw [if_pos hkk] at hk
          injection hk with hk
          subst hk
          exact hnew e hi
        · rw [if_neg hkk] at hk
          exact hP _ _ hk
      · rw [if_neg hi] at h; exact absurd h (by simp)

/-- When the trailing final-state check passes, every record in the mapping
has a non-empty embedded sequence whose last event is `task_conclusion`. -/
theorem finalCheck_ok_last :
    ∀ (recs : List (String × SubjectTaskRecord)) (ls : List (String × LastSeen)),
      finalCheck recs ls = .ok () →
      ∀ k r, dictLookup k recs = some r →
        ∃ el, r.state_transitions.getLast? = some el ∧ el.state_id = .task_conclusion := by
  intro recs
  induction recs with
  | nil =>
    intro ls _ k r hk
    simp [dictLookup] at hk
  | cons p rest ih =>
    obtain ⟨k0, r0⟩ := p
    intro ls h k r hk
    rw [finalCheck] at h
    cases hls : dictLookup k0 ls with
    | none => simp only [hls] at h; exact absurd h (by simp)
    | some pln =>
      simp only [hls] at h
      cases hlast : r0.state_transitions.getLast? with
      | none => simp only [hlast] at h; exact absurd h (by simp)
      | some ev =>
        simp only [hlast] at h
        by_cases hc : ev.state_id = .task_conclusion
        · rw [if_pos hc] at h
          rw [dictLookup] at hk
          by_cases hkk : k0 = k
          · rw [if_pos hkk] at hk
            injection hk with hk
            subst hk
            exact ⟨ev, hlast, hc⟩
          · rw [if_neg hkk] at hk
            exact ih ls h k r hk
        · rw [if_neg hc] at h; exact absurd h (by simp)

/-- Concrete run used by several witnesses: a session whose `task_conclusion`
timestamp (t=5) precedes its `task_initialized` timestamp (t=10) is accepted
by the loader, producing `task_total_time = -5`. -/
theorem load_neg_eval :
    load_state_transitions [evInit10, evConcl5] = .ok [("U_prototype_T", negRec)] := by
  simp [load_state_transitions, loadLoop, finalCheck, dictLookup, dictInsert, sessionKey,
    timestamps_inorder, state_transition_valid, valid_state_transitions, initial_state_id,
    newRecord, accumulate, negRec, evInit10, evConcl5]
  norm_num

/-- C3 counterexample: the loader accepts the file
`[(t=10, task_initialized), (t=5, task_conclusion)]` (the ordering check
exempts pairs following `task_initialized`) and returns a record with
`task_total_time = -5 < 0`, refuting non-negativity of `task_total_time`. -/
theorem c3_counterexample :
    load_state_transitions [evInit10, evConcl5] = .ok [("U_prototype_T", negRec)] ∧
    negRec.task_total_time < 0 := by
  refine ⟨load_neg_eval, ?_⟩
  norm_num [negRec]

/-- C3 amended: every record returned by the state-transitions loader has
non-negative `km_pull_total_time` and `km_push_total_time` (each derived
solely from timestamp deltas between consecutive events), but
`task_total_time` — equally derived solely from deltas — can be negative
when the event following `task_initialized` carries an earlier timestamp. -/
theorem c3_amended (events : List STEvent)
    (recs : List (String × SubjectTaskRecord))
    (h : load_state_transitions events = .ok recs) :
    ∀ k r, dictLookup k recs = some r →
      0 ≤ r.km_pull_total_time ∧ 0 ≤ r.km_push_total_time := by
  rw [load_state_transitions] at h
  cases hl : loadLoop events 1 [] [] with
  | error err => simp [hl] at h
  | ok p =>
    obtain ⟨ls2, recs2⟩ := p
    simp only [hl] at h
    cases hf : finalCheck recs2 ls2 with
    | error err => simp [hf] at h
    | ok u =>
      simp only [hf, Except.ok.injEq] at h
      subst h
      refine loadLoop_preserves
        (fun r => 0 ≤ r.km_pull_total_time ∧ 0 ≤ r.km_push_total_time)
        ?_ ?_ events 1 [] [] ls2 recs2 hl (by intro k r hk; simp [dictLookup] at hk)
      · intro e _
        simp [newRecord]
      · intro r prev e ⟨hp1, hp2⟩ htime
        have helapsed : prev.state_id ≠ initial_state_id →
            0 < e.utc_timestamp - prev.utc_timestamp := by
          intro hne
          rcases (timestamps_inorder_iff _ _ _).mp htime with hlt | heq
          · exact sub_pos.mpr hlt
          · exact absurd heq hne
        constructor
        · simp only [accumulate]
          by_cases hs : prev.state_id = .km_pull_activity
          · rw [if_pos hs]
            exact add_nonneg hp1 (le_of_lt (helapsed (by rw [hs]; decide)))
          · rw [if_neg hs]
            simpa using hp1
        · simp only [accumulate]
          by_cases hs : prev.state_id = .km_push_activity
          · rw [if_pos hs]
            exact add_nonneg hp2 (le_of_lt (helapsed (by rw [hs]; decide)))
          · rw [if_neg hs]
            simpa using hp2

/-- C3 witness: the amended non-negativity applied to the concrete accepted
run `[evInit10, evConcl5]` and its record. -/
theorem c3_amended_witness :
    0 ≤ negRec.km_pull_total_time ∧ 0 ≤ negRec.km_push_total_time :=
  c3_amended [evInit10, evConcl5] [("U_prototype_T", negRec)] load_neg_eval
    "U_prototype_T" negRec (by simp [dictLookup])

/-- C5: (1) when the loader meets an event whose session key has no previous
event and whose state is not `task_initialized`, it fails with the
invalid-initial-state error at that event's line; (2) in particular a file
whose first event is not `task_initialized` fails there with that error;
(3) a file holding exactly one `task_initialized` event is folded
successfully and then fails the after-the-fold check with the
invalid-final-state error; (4) whenever the loader succeeds, every returned
record's embedded sequence starts with a `task_initialized` event and ends
with a `task_conclusion` event. -/
theorem c5 :
    (∀ (e : STEvent) (es : List STEvent) (n : Nat)
        (ls : List (String × LastSeen)) (recs : List (String × SubjectTaskRecord)),
      dictLookup (sessionKey e) ls = none →
      e.state_id ≠ .task_initialized →
      loadLoop (e :: es) n ls recs = .error (.invalidInitialState (sessionKey e) n)) ∧
    (∀ (e : STEvent) (es : List STEvent),
      e.state_id ≠ .task_initialized →
      load_state_transitions (e :: es) = .error (.invalidInitialState (sessionKey e) 1)) ∧
    (∀ e : STEvent, e.state_id = .task_initialized →
      load_state_transitions [e] = .error (.invalidFinalState (sessionKey e) 1)) ∧
    (∀ (events : List STEvent) (recs : List (String × SubjectTaskRecord)),
      load_state_transitions events = .ok recs →
      ∀ k r, dictLookup k recs = some r →
        (∃ e0, r.state_transitions.head? = some e0 ∧ e0.state_id = .task_initialized) ∧
        (∃ el, r.state_transitions.getLast? = some el ∧ el.state_id = .task_conclusion)) := by
  refine ⟨?_, ?_, ?_, ?_⟩
  · intro e es n ls recs hls hi
    rw [loadLoop]
    simp only [hls]
    rw [if_neg hi]
  · intro e es hi
    rw [load_state_transitions, loadLoop]
    simp only [dictLookup]
    rw [if_neg hi]
  · intro e hi
    rw [load_state_transitions, loadLoop]
    simp only [dictLookup, hi, reduceIte, dictInsert, loadLoop, finalCheck,
      dictLookup_singleton, newRecord, List.getLast?_singleton]
    rw [if_neg (by decide : ¬ StateId.task_initialized = StateId.task_conclusion)]
  · intro events recs h k r hk
    constructor
    · -- first event of every record is task_initialized
      rw [load_state_transitions] at h
      cases hl : loadLoop events 1 [] [] with
      | error err => simp [hl] at h
      | ok p =>
        obtain ⟨ls2, recs2⟩ := p
        simp only [hl] at h
        cases hf : finalCheck recs2 ls2 with
        | error err => simp [hf] at h
        | ok u =>
          simp only [hf, Except.ok.injEq] at h
          subst h
          refine loadLoop_preserves
            (fun r => ∃ e0, r.state_transitions.head? = some e0 ∧
              e0.state_id = .task_initialized)
            ?_ ?_ events 1 [] [] ls2 recs2 hl
            (by intro k2 r2 hk2; simp [dictLookup] at hk2) k r hk
          · intro e hi
            exact ⟨e, rfl, hi⟩
          · rintro r2 prev e ⟨e0, he0, hi0⟩ _
            refine ⟨e0, ?_, hi0⟩
            simp only [accumulate]
            cases hst : r2.state_transitions with
            | nil => rw [hst] at he0; simp at he0
            | cons a t =>
              rw [hst] at he0
              simp only [List.cons_append, List.head?] at he0 ⊢
              exact he0
    · -- last event of every record is task_conclusion
      rw [load_state_transitions] at h
      cases hl : loadLoop events 1 [] [] with
      | error err => simp [hl] at h
      | ok p =>
        obtain ⟨ls2, recs2⟩ := p
        simp only [hl] at h
        cases hf : finalCheck recs2 ls2 with
        | error err => simp [hf] at h
        | ok u =>
          simp only [hf, Except.ok.injEq] at h
          subst h
          exact finalCheck_ok_last recs2 ls2 hf k r hk

/-- C5 witness: the error paths at concrete inputs (first event
`task_execution` fails the initial-state check; a single `task_initialized`
event fails the final-state check) and the boundary-state shape of a
concretely accepted record. -/
theorem c5_witness :
    loadLoop [evExec3] 5 [] [] = .error (.invalidInitialState "U_prototype_T" 5) ∧
    load_state_transitions [evExec3] = .error (.invalidInitialState "U_prototype_T" 1) ∧
    load_state_transitions [evInit10] = .error (.invalidFinalState "U_prototype_T" 1) ∧
    ((∃ e0, negRec.state_transitions.head? = some e0 ∧ e0.state_id = .task_initialized) ∧
     (∃ el, negRec.state_transitions.getLast? = some el ∧ el.state_id = .task_conclusion)) := by
  refine ⟨?_, ?_, ?_, ?_⟩
  · have h := c5.1 evExec3 [] 5 [] [] rfl (by decide)
    simpa [sessionKey, evExec3] using h
  · have h := c5.2.1 evExec3 [] (by decide)
    simpa [sessionKey, evExec3] using h
  · have h := c5.2.2.1 evInit10 rfl
    simpa [sessionKey, evInit10] using h
  · exact c5.2.2.2 [evInit10, evConcl5] [("U_prototype_T", negRec)] load_neg_eval
      "U_prototype_T" negRec (by simp [dictLookup])

theorem stripSource_addSource (f : String) (r : DirRecord) (h : r.file_source = none) :
    stripSource (addSource f r) = r := by
  cases r
  simp_all [stripSource, addSource]

/-- Merging a transition-derived record (carries `state_transitions`) with an
incoming pre-aggregated record (does not) whose times are within tolerance:
no warning, and the result is the incoming record's fields with the sequence
attached and provenance moved to the incoming file. -/
theorem mergeEntry_mixed_TP (key f : String) (e i : DirRecord) (s : List STEvent)
    (hT : e.state_transitions = some s) (hP : i.state_transitions = none)
    (h1 : |e.task_total_time - i.task_total_time| ≤ TIME_DIFFERENCE_THRESHOLD)
    (h2 : |e.km_pull_total_time - i.km_pull_total_time| ≤ TIME_DIFFERENCE_THRESHOLD) :
    mergeEntry key e i f =
      .ok ({ i with state_transitions := some s, file_source := some f }, []) := by
  simp only [mergeEntry, hT, hP]
  rw [if_neg (not_lt.mpr h1), if_neg (not_lt.mpr h2)]
  simp

/-- Merging a pre-aggregated record with an incoming transition-derived one
whose times are within tolerance: no warning, and the result is the existing
record's fields with the sequence attached (provenance unchanged). -/
theorem mergeEntry_mixed_PT (key f : String) (e i : DirRecord) (s : List STEvent)
    (hP : e.state_transitions = none) (hT : i.state_transitions = some s)
    (h1 : |e.task_total_time - i.task_total_time| ≤ TIME_DIFFERENCE_THRESHOLD)
    (h2 : |e.km_pull_total_time - i.km_pull_total_time| ≤ TIME_DIFFERENCE_THRESHOLD) :
    mergeEntry key e i f = .ok ({ e with state_transitions := some s }, []) := by
  simp only [mergeEntry, hT, hP]
  rw [if_neg (not_lt.mpr h1), if_neg (not_lt.mpr h2)]
  simp

theorem addSource_task_total_time (f : String) (r : DirRecord) :
    (addSource f r).task_total_time = r.task_total_time := rfl

theorem addSource_km_pull_total_time (f : String) (r : DirRecord) :
    (addSource f r).km_pull_total_time = r.km_pull_total_time := rfl

theorem addSource_state_transitions (f : String) (r : DirRecord) :
    (addSource f r).state_transitions = r.state_transitions := rfl

/-- Re-merging the very record already recorded for a key (modulo the stamped
provenance) is a no-op with no warnings. -/
theorem mergeEntry_self (key f1 f2 : String) (r : DirRecord) (hfs : r.file_source = none) :
    mergeEntry key (addSource f1 r) r f2 = .ok (addSource f1 r, []) := by
  have hstrip : stripSource (addSource f1 r) = r := stripSource_addSource f1 r hfs
  have h0 : ¬ ((0 : ℚ) > 1) := by norm_num
  cases hst : r.state_transitions with
  | none =>
    simp [mergeEntry, addSource_task_total_time, addSource_km_pull_total_time,
      addSource_state_transitions, hstrip, hst, sub_self, abs_zero,
      TIME_DIFFERENCE_THRESHOLD, h0]
  | some s =>
    simp [mergeEntry, addSource_task_total_time, addSource_km_pull_total_time,
      addSource_state_transitions, hstrip, hst, sub_self, abs_zero,
      TIME_DIFFERENCE_THRESHOLD, h0]

theorem addSource_file_source (f : String) (r : DirRecord) :
    (addSource f r).file_source = some f := rfl

theorem dictLookup_append {α : Type} (k : String) (l1 l2 : List (String × α)) :
    dictLookup k (l1 ++ l2) =
      match dictLookup k l1 with
      | some v => some v
      | none => dictLookup k l2 := by
  induction l1 with
  | nil => simp [dictLookup]
  | cons p rest ih =>
    obtain ⟨k0, v0⟩ := p
    by_cases h : k0 = k <;> simp [dictLookup, h, ih]

theorem dictInsert_absent {α : Type} (k : String) (v : α) (l : List (String × α))
    (h : dictLookup k l = none) : dictInsert k v l = l ++ [(k, v)] := by
  induction l with
  | nil => simp [dictInsert]
  | cons p rest ih =>
    obtain ⟨k0, v0⟩ := p
    rw [dictLookup] at h
    by_cases h0 : k0 = k
    · rw [if_pos h0] at h
      exact absurd h (by simp)
    · rw [if_neg h0] at h
      simp [dictInsert, h0, ih h]

theorem dictInsert_lookup_self {α : Type} (k : String) (v : α) (l : List (String × α))
    (h : dictLookup k l = some v) : dictInsert k v l = l := by
  induction l with
  | nil => simp [dictLookup] at h
  | cons p rest ih =>
    obtain ⟨k0, v0⟩ := p
    rw [dictLookup] at h
    by_cases h0 : k0 = k
    · subst h0
      rw [if_pos rfl] at h
      injection h with h
      subst h
      simp [dictInsert]
    · rw [if_neg h0] at h
      simp [dictInsert, h0, ih h]

theorem dictLookup_map_of_nodup {α β : Type} (g : α → β) :
    ∀ (c : List (String × α)) (k : String) (r : α),
      (c.map Prod.fst).Nodup → (k, r) ∈ c →
      dictLookup k (c.map (fun p => (p.1, g p.2))) = some (g r) := by
  intro c
  induction c with
  | nil =>
    intro k r _ h
    simp at h
  | cons p rest ih =>
    obtain ⟨k0, r0⟩ := p
    intro k r hnd hmem
    simp only [List.map_cons, List.nodup_cons] at hnd
    rw [List.mem_cons] at hmem
    rcases hmem with heq | hmem
    · cases heq
      simp [dictLookup]
    · by_cases h0 : k0 = k
      · exfalso
        subst h0
        exact hnd.1 (List.mem_map.mpr ⟨(k0, r), hmem, rfl⟩)
      · simp only [List.map_cons, dictLookup, if_neg h0]
        exact ih k r hnd.2 hmem

/-- A file whose keys are all new to the accumulator is adopted wholesale,
each record stamped with the file name, with no warnings. -/
theorem mergeFile_fresh (f : String) :
    ∀ (es acc : List (String × DirRecord)) (ws : List Warning),
      (es.map Prod.fst).Nodup →
      (∀ p ∈ es, dictLookup p.1 acc = none) →
      mergeFile f es acc ws = .ok (acc ++ es.map (fun p => (p.1, addSource f p.2)), ws) := by
  intro es
  induction es with
  | nil =>
    intro acc ws _ _
    simp [mergeFile]
  | cons p rest ih =>
    obtain ⟨k0, r0⟩ := p
    intro acc ws hnd hfr
    simp only [List.map_cons, List.nodup_cons] at hnd
    have h0 : dictLookup k0 acc = none := hfr (k0, r0) (List.mem_cons_self _ _)
    rw [mergeFile]
    simp only [h0]
    rw [dictInsert_absent k0 (addSource f r0) acc h0]
    rw [ih (acc ++ [(k0, addSource f r0)]) ws hnd.2 ?_]
    · simp
    · intro p hp
      rw [dictLookup_append]
      rw [hfr p (List.mem_cons_of_mem _ hp)]
      have hne : k0 ≠ p.1 := by
        intro h
        exact hnd.1 (List.mem_map.mpr ⟨p, hp, h.symm⟩)
      simp [dictLookup, hne]

/-- Re-merging a file whose records are already present (stamped from an
earlier identical file) leaves the accumulator and warnings unchanged. -/
theorem mergeFile_duplicate (f1 f2 : String) :
    ∀ (es acc : List (String × DirRecord)) (ws : List Warning),
      (∀ p ∈ es, dictLookup p.1 acc = some (addSource f1 p.2) ∧ p.2.file_source = none) →
      mergeFile f2 es acc ws = .ok (acc, ws) := by
  intro es
  induction es with
  | nil =>
    intro acc ws _
    rw [mergeFile]
  | cons p rest ih =>
    obtain ⟨k0, r0⟩ := p
    intro acc ws h
    obtain ⟨hl, hfs⟩ := h (k0, r0) (List.mem_cons_self _ _)
    rw [mergeFile]
    simp only [hl, mergeEntry_self k0 f1 f2 r0 hfs]
    rw [dictInsert_lookup_self k0 (addSource f1 r0) acc hl, List.append_nil]
    exact ih acc ws (fun p hp => h p (List.mem_cons_of_mem _ hp))

/-- C7: reconciling a directory with two byte-identical copies of a file
yields exactly the same mapping as reconciling the directory with one copy
— provenance included — with no warning and no conflict error. -/
theorem c7 (f1 f2 : String) (c : List (String × DirRecord))
    (hnd : (c.map Prod.fst).Nodup)
    (hfs : ∀ p ∈ c, p.2.file_source = none) :
    load_directory [(f1, c)] = .ok (c.map (fun p => (p.1, addSource f1 p.2)), []) ∧
    load_directory [(f1, c), (f2, c)] =
      .ok (c.map (fun p => (p.1, addSource f1 p.2)), []) := by
  have h1 : mergeFile f1 c [] [] = .ok (c.map (fun p => (p.1, addSource f1 p.2)), []) := by
    have h := mergeFile_fresh f1 c [] [] hnd (fun p _ => rfl)
    simpa using h
  have h2 : mergeFile f2 c (c.map (fun p => (p.1, addSource f1 p.2))) [] =
      .ok (c.map (fun p => (p.1, addSource f1 p.2)), []) := by
    refine mergeFile_duplicate f1 f2 c _ [] ?_
    intro p hp
    refine ⟨?_, hfs p hp⟩
    exact dictLookup_map_of_nodup (addSource f1) c p.1 p.2 hnd (Prod.mk.eta ▸ hp)
  constructor
  · simp only [load_directory, loadDirLoop, h1]
  · simp only [load_directory, loadDirLoop, h1, h2]

/-- C7 witness: the idempotent double load evaluated at a one-record
State-Transition-derived file. -/
theorem c7_witness :
    load_directory [("f1.jsonl", [("U1_prototype_Task1", wrec)])] =
      .ok ([("U1_prototype_Task1", addSource "f1.jsonl" wrec)], []) ∧
    load_directory [("f1.jsonl", [("U1_prototype_Task1", wrec)]),
        ("f2.jsonl", [("U1_prototype_Task1", wrec)])] =
      .ok ([("U1_prototype_Task1", addSource "f1.jsonl" wrec)], []) := by
  have h := c7 "f1.jsonl" "f2.jsonl" [("U1_prototype_Task1", wrec)]
    (by simp)
    (by
      rintro p hp
      rcases List.mem_singleton.mp hp with rfl
      rfl)
  simpa using h

/-- C6: merging a transition-derived record with a pre-aggregated record for
the same key, times within tolerance, succeeds with no warning; the result
carries the pre-aggregated record's fields plus the attached sequence, and
the outcome is the same whichever file the directory listing visits first
(here even the transient provenance coincides). -/
theorem c6 (f1 f2 k : String) (rT rP : DirRecord) (s : List STEvent)
    (hT : rT.state_transitions = some s) (hP : rP.state_transitions = none)
    (_hTf : rT.file_source = none) (_hPf : rP.file_source = none)
    (h1 : |rT.task_total_time - rP.task_total_time| ≤ TIME_DIFFERENCE_THRESHOLD)
    (h2 : |rT.km_pull_total_time - rP.km_pull_total_time| ≤ TIME_DIFFERENCE_THRESHOLD) :
    load_directory [(f1, [(k, rT)]), (f2, [(k, rP)])] =
      .ok ([(k, { rP with state_transitions := some s, file_source := some f2 })], []) ∧
    load_directory [(f2, [(k, rP)]), (f1, [(k, rT)])] =
      .ok ([(k, { rP with state_transitions := some s, file_source := some f2 })], []) := by
  constructor
  · have hm : mergeEntry k (addSource f1 rT) rP f2 =
        .ok ({ rP with state_transitions := some s, file_source := some f2 }, []) := by
      apply mergeEntry_mixed_TP
      · rw [addSource_state_transitions]
        exact hT
      · exact hP
      · rw [addSource_task_total_time]
        exact h1
      · rw [addSource_km_pull_total_time]
        exact h2
    simp only [load_directory, loadDirLoop, mergeFile, dictLookup, dictInsert, hm,
      reduceIte, List.nil_append]
  · have hm : mergeEntry k (addSource f2 rP) rT f1 =
        .ok ({ rP with state_transitions := some s, file_source := some f2 }, []) := by
      have h := mergeEntry_mixed_PT k f1 (addSource f2 rP) rT s
        (by rw [addSource_state_transitions]; exact hP) hT
        (by rw [addSource_task_total_time, abs_sub_comm]; exact h1)
        (by rw [addSource_km_pull_total_time, abs_sub_comm]; exact h2)
      exact h
    simp only [load_directory, loadDirLoop, mergeFile, dictLookup, dictInsert, hm,
      reduceIte, List.nil_append]

/-- C6 witness: the symmetric merge evaluated on a concrete pair — a
transition-derived record (total 100, pull 20, embedded sequence) and its
pre-aggregated sibling. -/
theorem c6_witness :
    load_directory [("f1.jsonl", [("U1_prototype_Task1", bT)]),
        ("f2.jsonl", [("U1_prototype_Task1", b100)])] =
      .ok ([("U1_prototype_Task1",
        { b100 with state_transitions := some [sA0], file_source := some "f2.jsonl" })], []) ∧
    load_directory [("f2.jsonl", [("U1_prototype_Task1", b100)]),
        ("f1.jsonl", [("U1_prototype_Task1", bT)])] =
      .ok ([("U1_prototype_Task1",
        { b100 with state_transitions := some [sA0], file_source := some "f2.jsonl" })], []) := by
  have h := c6 "f1.jsonl" "f2.jsonl" "U1_prototype_Task1" bT b100 [sA0] rfl rfl rfl rfl
    (by
      rw [show bT.task_total_time = 100 from rfl, show b100.task_total_time = 100 from rfl]
      norm_num [TIME_DIFFERENCE_THRESHOLD])
    (by
      rw [show bT.km_pull_total_time = 20 from rfl, show b100.km_pull_total_time = 20 from rfl]
      norm_num [TIME_DIFFERENCE_THRESHOLD])
  exact h

/-- C8 counterexample: two files supplying pre-aggregated records for the
same key with `task_total_time` 100.0 and 100.4 — the 0.4 s difference is
*within* the 1 s tolerance, so no warning is printed, and the exact-equality
check on the otherwise-equal records then raises the conflicting-record
error: the merge neither warns nor succeeds. -/
theorem c8_counterexample :
    load_directory [("f1.jsonl", [("U1_prototype_Task1", b100)]),
        ("f2.jsonl", [("U1_prototype_Task1", b1004)])] =
      .error (.conflictingSubjectTask "U1_prototype_Task1" (some "f1.jsonl") "f2.jsonl") := by
  have hne : ¬ (b1004 = stripSource (addSource "f1.jsonl" b100)) := by
    rw [stripSource_addSource "f1.jsonl" b100 rfl]
    intro h
    have h2 := congrArg DirRecord.task_total_time h
    rw [show b1004.task_total_time = 100.4 from rfl,
      show b100.task_total_time = 100 from rfl] at h2
    norm_num at h2
  have hm : mergeEntry "U1_prototype_Task1" (addSource "f1.jsonl" b100) b1004 "f2.jsonl" =
      .error (.conflictingSubjectTask "U1_prototype_Task1" (some "f1.jsonl") "f2.jsonl") := by
    simp only [mergeEntry, addSource_state_transitions, addSource_task_total_time,
      addSource_km_pull_total_time, addSource_file_source,
      show b100.state_transitions = (none : Option (List STEvent)) from rfl,
      show b1004.state_transitions = (none : Option (List STEvent)) from rfl,
      show b100.task_total_time = 100 from rfl,
      show b1004.task_total_time = 100.4 from rfl,
      show b100.km_pull_total_time = 20 from rfl,
      show b1004.km_pull_total_time = 20 from rfl]
    rw [if_neg hne]
  simp only [load_directory, loadDirLoop, mergeFile, dictLookup, dictInsert, hm, reduceIte]

/-- C8 amended: when the `task_total_time` and `km_pull_total_time`
differences are within the 1-second tolerance, the merge emits *no* warning;
it succeeds iff exactly one of the two records carries `state_transitions`
or the records are equal up to provenance, and otherwise (in particular for
two pre-aggregated records differing only by those 0.4 s) it raises the
conflicting-record error. -/
theorem c8_amended (key newFile : String) (e i : DirRecord)
    (h1 : |e.task_total_time - i.task_total_time| ≤ TIME_DIFFERENCE_THRESHOLD)
    (h2 : |e.km_pull_total_time - i.km_pull_total_time| ≤ TIME_DIFFERENCE_THRESHOLD) :
    (∀ merged ws, mergeEntry key e i newFile = .ok (merged, ws) → ws = []) ∧
    ((∃ res, mergeEntry key e i newFile = .ok res) ↔
      ((∃ s, e.state_transitions = some s ∧ i.state_transitions = none) ∨
       (∃ s, e.state_transitions = none ∧ i.state_transitions = some s) ∨
       i = stripSource e)) := by
  have hw1 : ¬ |e.task_total_time - i.task_total_time| > TIME_DIFFERENCE_THRESHOLD :=
    not_lt.mpr h1
  have hw2 : ¬ |e.km_pull_total_time - i.km_pull_total_time| > TIME_DIFFERENCE_THRESHOLD :=
    not_lt.mpr h2
  cases hse : e.state_transitions with
  | some s1 =>
    cases hsi : i.state_transitions with
    | none =>
      constructor
      · intro merged ws hok
        simp only [mergeEntry, hse, hsi] at hok
        rw [if_neg hw1, if_neg hw2] at hok
        simp only [Except.ok.injEq, Prod.mk.injEq] at hok
        simpa using hok.2.symm
      · constructor
        · intro _
          exact Or.inl ⟨s1, rfl, rfl⟩
        · intro _
          exact ⟨_, mergeEntry_mixed_TP key newFile e i s1 hse hsi h1 h2⟩
    | some s2 =>
      by_cases heq : i = stripSource e
      · constructor
        · intro merged ws hok
          simp only [mergeEntry, hse, hsi, if_pos heq] at hok
          rw [if_neg hw1, if_neg hw2] at hok
          simp only [Except.ok.injEq, Prod.mk.injEq] at hok
          simpa using hok.2.symm
        · constructor
          · intro _
            exact Or.inr (Or.inr heq)
          · intro _
            refine ⟨(e, []), ?_⟩
            simp only [mergeEntry, hse, hsi, if_pos heq]
            rw [if_neg hw1, if_neg hw2]
            simp
      · constructor
        · intro merged ws hok
          simp only [mergeEntry, hse, hsi, if_neg heq] at hok
          exact absurd hok (by simp)
        · constructor
          · rintro ⟨res, hres⟩
            simp only [mergeEntry, hse, hsi, if_neg heq] at hres
            exact absurd hres (by simp)
          · rintro (⟨s, _, hbad⟩ | ⟨s, hbad, _⟩ | h3)
            · exact absurd hbad (by simp)
            · exact absurd hbad (by simp)
            · exact absurd h3 heq
  | none =>
    cases hsi : i.state_transitions with
    | some s2 =>
      constructor
      · intro merged ws hok
        simp only [mergeEntry, hse, hsi] at hok
        rw [if_neg hw1, if_neg hw2] at hok
        simp only [Except.ok.injEq, Prod.mk.injEq] at hok
        simpa using hok.2.symm
      · constructor
        · intro _
          exact Or.inr (Or.inl ⟨s2, rfl, rfl⟩)
        · intro _
          exact ⟨_, mergeEntry_mixed_PT key newFile e i s2 hse hsi h1 h2⟩
    | none =>
      by_cases heq : i = stripSource e
      · constructor
        · intro merged ws hok
          simp only [mergeEntry, hse, hsi, if_pos heq] at hok
          rw [if_neg hw1, if_neg hw2] at hok
          simp only [Except.ok.injEq, Prod.mk.injEq] at hok
          simpa using hok.2.symm
        · constructor
          · intro _
            exact Or.inr (Or.inr heq)
          · intro _
            refine ⟨(e, []), ?_⟩
            simp only [mergeEntry, hse, hsi, if_pos heq]
            rw [if_neg hw1, if_neg hw2]
            simp
      · constructor
        · intro merged ws hok
          simp only [mergeEntry, hse, hsi, if_neg heq] at hok
          exact absurd hok (by simp)
        · constructor
          · rintro ⟨res, hres⟩
            simp only [mergeEntry, hse, hsi, if_neg heq] at hres
            exact absurd hres (by simp)
          · rintro (⟨s, hbad, _⟩ | ⟨s, _, hbad⟩ | h3)
            · exact absurd hbad (by simp)
            · exact absurd hbad (by simp)
            · exact absurd h3 heq

/-- C8 witness: the amended characterization at the concrete Scenario B
values 100.0 vs 100.4 with a transition-derived existing record: the merge
succeeds (and, by the first conjunct, with no warning). -/
theorem c8_amended_witness :
    ∃ res, mergeEntry "U1_prototype_Task1" (addSource "f1.jsonl" bT) b1004 "f2.jsonl" =
      .ok res := by
  refine ((c8_amended "U1_prototype_Task1" "f2.jsonl" (addSource "f1.jsonl" bT) b1004
    ?_ ?_).2).mpr (Or.inl ⟨[sA0], rfl, rfl⟩)
  · rw [addSource_task_total_time, show bT.task_total_time = 100 from rfl,
      show b1004.task_total_time = 100.4 from rfl]
    simp only [TIME_DIFFERENCE_THRESHOLD]
    rw [abs_le]
    norm_num
  · rw [addSource_km_pull_total_time, show bT.km_pull_total_time = 20 from rfl,
      show b1004.km_pull_total_time = 20 from rfl]
    norm_num [TIME_DIFFERENCE_THRESHOLD]

theorem fieldsPresent_iff (schema : List String) (input : List (String × PyVal)) :
    fieldsPresent schema input = .ok () ↔
      ∀ attr ∈ schema, attr = "optional_content" ∨ (dictLookup attr input).isSome = true := by
  induction schema with
  | nil => simp [fieldsPresent]
  | cons a rest ih =>
    rw [fieldsPresent]
    cases ho : dictLookup a input with
    | none =>
      by_cases h1 : a = "optional_content"
      · rw [if_neg (by simp [h1])]
        rw [ih]
        constructor
        · intro hall attr hmem
          rcases List.mem_cons.mp hmem with rfl | hmem2
          · exact Or.inl h1
          · exact hall attr hmem2
        · intro hall attr hmem
          exact hall attr (List.mem_cons_of_mem _ hmem)
      · rw [if_pos (by simp [ho, h1])]
        simp only [reduceCtorEq, false_iff, not_forall]
        refine ⟨a, List.mem_cons_self _ _, ?_⟩
        rintro (hc | hc)
        · exact h1 hc
        · rw [ho] at hc
          simp at hc
    | some v =>
      rw [if_neg (by simp [ho])]
      rw [ih]
      constructor
      · intro hall attr hmem
        rcases List.mem_cons.mp hmem with rfl | hmem2
        · exact Or.inr (by simp [ho])
        · exact hall attr hmem2
      · intro hall attr hmem
        exact hall attr (List.mem_cons_of_mem _ hmem)

/-- C9: the presence check of either record shape fails iff some schema
field other than `optional_content` is absent from the input — in
particular the knowledge-nugget counts, `nugget_content` and `task_timeout`
are all required Subject-Task fields — and the type check's outcome is
unchanged by any present field that has no declared type in the schema
(such fields are skipped, not failed). -/
theorem c9 :
    (∀ input : List (String × PyVal),
      verify_all_subject_task_fields_present input = .ok () ↔
        ∀ attr ∈ subject_task_schema_fields,
          attr = "optional_content" ∨ (dictLookup attr input).isSome = true) ∧
    ("corpus_knowledge_nugget_count" ∈ subject_task_schema_fields ∧
     "expert_captured_knowledge_nugget_count" ∈ subject_task_schema_fields ∧
     "nugget_content" ∈ subject_task_schema_fields ∧
     "task_timeout" ∈ subject_task_schema_fields) ∧
    (∀ input : List (String × PyVal),
      verify_all_state_transition_fields_present input = .ok () ↔
        ∀ attr ∈ state_transition_schema_fields,
          attr = "optional_content" ∨ (dictLookup attr input).isSome = true) ∧
    (∀ (input : List (String × PyVal)) (attr : String) (v : PyVal),
      subject_task_types attr = none → attr ≠ "condition" →
      type_check_subject_task_fields ((attr, v) :: input) =
        type_check_subject_task_fields input) ∧
    (∀ (input : List (String × PyVal)) (attr : String) (v : PyVal),
      state_transition_types attr = none → attr ≠ "condition" → attr ≠ "state_id" →
      type_check_state_transition_fields ((attr, v) :: input) =
        type_check_state_transition_fields input) := by
  refine ⟨?_, by decide, ?_, ?_, ?_⟩
  · intro input
    exact fieldsPresent_iff subject_task_schema_fields input
  · intro input
    exact fieldsPresent_iff state_transition_schema_fields input
  · intro input attr v hnone hcond
    rw [type_check_subject_task_fields]
    rw [if_neg hcond]
    simp only [hnone]
  · intro input attr v hnone hcond hstate
    rw [type_check_state_transition_fields]
    rw [if_neg hstate, if_neg hcond]
    simp only [hnone]

/-- C9 witness: a field with no declared type is transparent to both type
checkers, and the presence characterization instantiated at the empty
field-mapping. -/
theorem c9_witness :
    type_check_subject_task_fields [("extra_content", PyVal.pstr "x")] =
      type_check_subject_task_fields [] ∧
    type_check_state_transition_fields [("extra_content", PyVal.pstr "x")] =
      type_check_state_transition_fields [] ∧
    (verify_all_subject_task_fields_present [] = .ok () ↔
      ∀ attr ∈ subject_task_schema_fields,
        attr = "optional_content" ∨
          (dictLookup attr ([] : List (String × PyVal))).isSome = true) :=
  ⟨c9.2.2.2.1 [] "extra_content" (.pstr "x") rfl (by decide),
   c9.2.2.2.2 [] "extra_content" (.pstr "x") rfl (by decide) (by decide),
   c9.1 []⟩

theorem verify_column_names_ok_iff (names : List String) :
    verify_column_names names = .ok () ↔
      ((∀ c ∈ required_column_names, c ∈ names) ∧
       (∀ c ∈ names, c ∈ required_column_names ∨ c ∈ optional_column_names)) := by
  rw [verify_column_names]
  by_cases hA : ∀ c ∈ required_column_names, c ∈ names
  · have hA2 : (required_column_names.filter fun c => ! names.contains c).isEmpty = true := by
      rw [List.isEmpty_iff, List.filter_eq_nil_iff]
      intro c hc
      simpa using hA c hc
    rw [if_pos hA2]
    by_cases hB : ∀ c ∈ names, c ∈ required_column_names ∨ c ∈ optional_column_names
    · have hB2 : ((names.filter fun c => ! required_column_names.contains c).filter
          fun c => ! optional_column_names.contains c).isEmpty = true := by
        rw [List.isEmpty_iff, List.filter_eq_nil_iff]
        intro c hc
        rw [List.mem_filter] at hc
        obtain ⟨hcn, hcr⟩ := hc
        rcases hB c hcn with hr | ho
        · exact absurd hr (by simpa using hcr)
        · simpa using ho
      rw [if_pos hB2]
      exact iff_of_true rfl ⟨hA, hB⟩
    · have hB2 : ¬ ((names.filter fun c => ! required_column_names.contains c).filter
          fun c => ! optional_column_names.contains c).isEmpty = true := by
        rw [List.isEmpty_iff, List.filter_eq_nil_iff]
        push_neg at hB
        obtain ⟨c, hcn, hcro⟩ := hB
        intro hall
        have hcf : c ∈ names.filter fun c => ! required_column_names.contains c := by
          rw [List.mem_filter]
          refine ⟨hcn, ?_⟩
          simpa using hcro.1
        have hco := hall c hcf
        exact hcro.2 (by simpa using hco)
      rw [if_neg hB2]
      exact iff_of_false (by simp) (fun h => hB h.2)
  · have hA2 : ¬ (required_column_names.filter fun c => ! names.contains c).isEmpty = true := by
      rw [List.isEmpty_iff, List.filter_eq_nil_iff]
      push_neg at hA
      obtain ⟨c, hc, hcn⟩ := hA
      intro hall
      have hcm := hall c hc
      exact hcn (by simpa using hcm)
    rw [if_neg hA2]
    exact iff_of_false (by simp) (fun h => hA h.1)

/-- C10: the task-metadata header check accepts a header row iff it contains
every required column name and no name outside the required and optional
sets — so acceptance is invariant under any permutation of the columns —
yet the row type converter is purely positional: on any row it accepts, the
cell at position 1 has been converted to float, the cell at position 2 to
int, and the cell at position 3 (when present and non-blank) to float,
with no reference to the header at all. -/
theorem c10 :
    (∀ names : List String,
      verify_column_names names = .ok () ↔
        ((∀ c ∈ required_column_names, c ∈ names) ∧
         (∀ c ∈ names, c ∈ required_column_names ∨ c ∈ optional_column_names))) ∧
    (∀ names names2 : List String, names.Perm names2 →
      (verify_column_names names = .ok () ↔ verify_column_names names2 = .ok ())) ∧
    (∀ (c0 c1 c2 : String) (rest : List String) (out : List Cell),
      verify_row_types (c0 :: c1 :: c2 :: rest) = .ok out →
      out.head? = some (.cstr c0) ∧
      (∃ q1, pyFloat c1 = some q1 ∧ out.get? 1 = some (.cfloat q1)) ∧
      (∃ n2, pyInt c2 = some n2 ∧ out.get? 2 = some (.cint n2)) ∧
      (∀ c3 more, rest = c3 :: more → c3 ≠ "" →
        ∃ q3, pyFloat c3 = some q3 ∧ out.get? 3 = some (.cfloat q3))) := by
  refine ⟨verify_column_names_ok_iff, ?_, ?_⟩
  · intro names names2 hperm
    rw [verify_column_names_ok_iff, verify_column_names_ok_iff]
    constructor
    · rintro ⟨ha, hb⟩
      exact ⟨fun c hc => hperm.mem_iff.mp (ha c hc),
        fun c hc => hb c (hperm.mem_iff.mpr hc)⟩
    · rintro ⟨ha, hb⟩
      exact ⟨fun c hc => hperm.mem_iff.mpr (ha c hc),
        fun c hc => hb c (hperm.mem_iff.mp hc)⟩
  · intro c0 c1 c2 rest out hok
    cases rest with
    | nil =>
      rw [verify_row_types] at hok
      cases hq1 : pyFloat c1 with
      | none => simp only [hq1] at hok; exact absurd hok (by simp)
      | some q1 =>
        simp only [hq1] at hok
        cases hn2 : pyInt c2 with
        | none => simp only [hn2] at hok; exact absurd hok (by simp)
        | some n2 =>
          simp only [hn2, Except.ok.injEq] at hok
          subst hok
          refine ⟨rfl, ⟨q1, rfl, rfl⟩, ⟨n2, rfl, rfl⟩, ?_⟩
          intro c3 more heq
          exact absurd heq (by simp)
    | cons c3 more =>
      rw [verify_row_types] at hok
      cases hq1 : pyFloat c1 with
      | none => simp only [hq1] at hok; exact absurd hok (by simp)
      | some q1 =>
        simp only [hq1] at hok
        cases hn2 : pyInt c2 with
        | none => simp only [hn2] at hok; exact absurd hok (by simp)
        | some n2 =>
          simp only [hn2] at hok
          by_cases hb : c3 = ""
          · rw [if_pos hb] at hok
            simp only [Except.ok.injEq] at hok
            subst hok
            refine ⟨rfl, ⟨q1, rfl, rfl⟩, ⟨n2, rfl, rfl⟩, ?_⟩
            intro c3x morex heq hne
            injection heq with heq1 _
            exact absurd (heq1 ▸ hb) hne
          · rw [if_neg hb] at hok
            cases hq3 : pyFloat c3 with
            | none => simp only [hq3] at hok; exact absurd hok (by simp)
            | some q3 =>
              simp only [hq3, Except.ok.injEq] at hok
              subst hok
              refine ⟨rfl, ⟨q1, rfl, rfl⟩, ⟨n2, rfl, rfl⟩, ?_⟩
              intro c3x morex heq hne
              injection heq with heq1 _
              subst heq1
              exact ⟨q3, hq3, rfl⟩

/-- C10 witness: the header check accepting a reordered header (and its
permutation invariance), and the positional conversions on a concretely
accepted row. -/
theorem c10_witness :
    verify_column_names ["task_maximum_score", "task_id", "task_optimal_time_in_seconds",
      "task_passing_score"] = .ok () ∧
    (verify_column_names ["task_id", "task_optimal_time_in_seconds", "task_maximum_score"] =
        .ok () ↔
      verify_column_names ["task_maximum_score", "task_optimal_time_in_seconds", "task_id"] =
        .ok ()) ∧
    (([Cell.cstr "T1", Cell.cfloat 25, Cell.cint 10] : List Cell).head? =
        some (Cell.cstr "T1") ∧
     (∃ q1, pyFloat "25" = some q1 ∧
       ([Cell.cstr "T1", Cell.cfloat 25, Cell.cint 10] : List Cell).get? 1 =
         some (Cell.cfloat q1)) ∧
     (∃ n2, pyInt "10" = some n2 ∧
       ([Cell.cstr "T1", Cell.cfloat 25, Cell.cint 10] : List Cell).get? 2 =
         some (Cell.cint n2)) ∧
     (∀ c3 more, ([] : List String) = c3 :: more → c3 ≠ "" →
       ∃ q3, pyFloat c3 = some q3 ∧
         ([Cell.cstr "T1", Cell.cfloat 25, Cell.cint 10] : List Cell).get? 3 =
           some (Cell.cfloat q3))) := by
  refine ⟨(c10.1 _).mpr (by decide), c10.2.1 _ _ (by decide),
    c10.2.2 "T1" "25" "10" [] _ ?_⟩
  simp [verify_row_types, pyFloat, pyFloatCore, pyInt, allDigits, digitsVal]

end KMEval
